import Mathlib

/-!
Shallow embedding of `src/main.ts` of the ProseMirror mock-codeblock demo.

The repository wires two custom ProseMirror commands (`tabCommand`,
`enterCommand`) plus two pure helpers (`getIndentText`, `getExistingIndent`)
and a mutable settings record into an external editing framework.  The
framework itself (document schema, transaction machinery, the fallback
commands `newlineInCode`, `createParagraphNear`, `liftEmptyBlock`,
`splitBlock`) is an external collaborator and is modelled abstractly: the
fallback commands are universally quantified functions, and a transaction is
a record of the document text, the selection and the accumulated edit steps,
with `insertText` splicing text into the document as the framework's
`Transaction.insertText(text, from, to)` does.

JavaScript numbers are modelled as `JSNum`: either `NaN` or a finite value
(a rational; the program only ever meets finite values and `NaN`, both of
which `<input type=number>.valueAsNumber` can produce).  JavaScript
operations that can throw (`String.prototype.repeat` on a negative count)
are embedded in `Except String`.
-/

namespace PMIndent

/-- A JavaScript number as this program can observe it: `NaN` or a finite
value, modelled as a rational.  (`valueAsNumber` of a number input yields a
finite value or `NaN`, never `±Infinity`.) -/
inductive JSNum where
  | nan : JSNum
  | num (q : ℚ) : JSNum
deriving DecidableEq, Repr

/-- ECMAScript `ToIntegerOrInfinity` restricted to the finite values of
`JSNum`: `NaN` becomes `0`, a finite value is truncated toward zero. -/
def toIntegerOrInfinity : JSNum → Int
  | JSNum.nan => 0
  | JSNum.num q => if 0 ≤ q then Rat.floor q else -(Rat.floor (-q))

/-- ECMAScript `String.prototype.repeat`: truncate the count; a negative
count throws a `RangeError`, otherwise the string is concatenated that many
times. -/
def jsRepeat (s : String) (n : JSNum) : Except String String :=
  let k := toIntegerOrInfinity n
  if k < 0 then Except.error "RangeError"
  else Except.ok (String.mk (List.flatten (List.replicate k.toNat s.data)))

/-- `getIndentText(useTab, spaceCount)` from `src/main.ts`:
`if (useTab) return "\t"; return " ".repeat(spaceCount);`. -/
def getIndentText (useTab : Bool) (spaceCount : JSNum) : Except String String :=
  if useTab then Except.ok "\t"
  else jsRepeat " " spaceCount

/-- The character class of the JavaScript regex `\s` (what `/\S/` excludes):
ASCII whitespace, NBSP, the Unicode space separators, line/paragraph
separators and the BOM. -/
def jsIsSpace (c : Char) : Bool :=
  c == ' ' || c == '\t' || c == '\n' || c == '\x0b' || c == '\x0c' ||
  c == '\r' || c == '\u00A0' || c == '\u1680' ||
  (0x2000 ≤ c.val && c.val ≤ 0x200A) ||
  c == '\u2028' || c == '\u2029' || c == '\u202F' || c == '\u205F' ||
  c == '\u3000' || c == '\uFEFF'

/-- `line.search(/\S/)`: the index of the first non-whitespace character of
`line`, or `-1` when every character is whitespace (or the line is empty). -/
def jsSearchNonSpace (line : String) : Int :=
  match line.data.findIdx? (fun c => !(jsIsSpace c)) with
  | some i => (i : Int)
  | none => -1

/-- ECMAScript `String.prototype.slice(start, end)`: negative indices count
from the end of the string, then both are clamped to `[0, length]` and the
characters in `[start, end)` are returned. -/
def jsSlice (s : String) (start stop : Int) : String :=
  let len : Int := (s.data.length : Int)
  let lo : Int := if start < 0 then max (len + start) 0 else min start len
  let hi : Int := if stop < 0 then max (len + stop) 0 else min stop len
  String.mk ((s.data.take hi.toNat).drop lo.toNat)

/-- `getExistingIndent(line)` from `src/main.ts`:
`return line.slice(0, line.search(/\S/));`. -/
def getExistingIndent (line : String) : String :=
  jsSlice line 0 (jsSearchNonSpace line)

/-- Modelled from the spec: "returns the leading whitespace substring of
`line` (the prefix before the first non-whitespace character), or the entire
line if no non-whitespace character exists."  Stated as the longest
whitespace prefix of the line; to be compared with `getExistingIndent`. -/
def spec_leadingWhitespace (line : String) : String :=
  String.mk (line.data.takeWhile jsIsSpace)

example : getExistingIndent "  ab" = "  " := by decide
example : getExistingIndent "ab" = "" := by decide
example : getExistingIndent "" = "" := by decide
example : getExistingIndent " " = "" := by decide
example : spec_leadingWhitespace " " = " " := by decide
example : getExistingIndent "   " = "  " := by decide

/-- The `IndentSettings` interface of `src/main.ts` (`useTab`, `spaceCount`).
The record is a mutable global in the program; here the current value is
passed explicitly to the code that reads it. -/
structure IndentSettings where
  useTab : Bool
  spaceCount : JSNum
deriving DecidableEq, Repr

/-- The space-count input listener of `src/main.ts`:
`settings.spaceCount = spaceInput.valueAsNumber || 0;`.
`v` is `spaceInput.valueAsNumber` (`NaN` for non-numeric input); `v || 0`
keeps `v` when it is truthy (finite and non-zero) and yields `+0`
otherwise. -/
def storedSpaceCount (v : JSNum) : JSNum :=
  match v with
  | JSNum.nan => JSNum.num 0
  | JSNum.num q => if q = 0 then JSNum.num 0 else JSNum.num q

/-- An edit step recorded on a transaction: the external framework's
`Transaction.insertText(text, from, to)` (replace the range `[from, to)`
with `text`; inserting at a position is the degenerate `from = to`). -/
structure InsertTextStep where
  text : String
  rangeFrom : Nat
  rangeTo : Nat
deriving DecidableEq, Repr

/-- A ProseMirror transaction, modelled by what this program observes of it:
the document text it would produce, its selection (`selection.from`,
`selection.to`) and the accumulated edit steps. -/
structure Transaction where
  doc : List Char
  selFrom : Nat
  selTo : Nat
  steps : List InsertTextStep
deriving DecidableEq, Repr

/-- The external framework's `Transaction.insertText(text, from, to)`:
replaces the characters in `[from, to)` of the document with `text` and
records the step. -/
def Transaction.insertText (tr : Transaction) (text : String)
    (rangeFrom rangeTo : Nat) : Transaction :=
  { tr with
    doc := tr.doc.take rangeFrom ++ text.data ++ tr.doc.drop rangeTo
    steps := tr.steps ++ [⟨text, rangeFrom, rangeTo⟩] }

/-- The editor state, modelled by what this program reads of it: the
document text, the selection boundaries (`selection.from`, `selection.to`)
and the text content of the parent node of the selection head
(`selection.$from.parent.textContent` — the line the cursor is on). -/
structure EditorState where
  doc : List Char
  selFrom : Nat
  selTo : Nat
  selParentText : String
deriving DecidableEq, Repr

/-- `state.tr`: a fresh transaction starting from the state's document and
selection, with no steps yet. -/
def EditorState.tr (state : EditorState) : Transaction :=
  ⟨state.doc, state.selFrom, state.selTo, []⟩

/-- `tabCommand` from `src/main.ts`.  `dispatch = true` models a present
dispatch function; the returned pair is (return value, the transaction
passed to `dispatch`, if any).  The JavaScript computes
`getIndentText(settings.useTab, settings.spaceCount)` before testing
`dispatch`, so a `RangeError` thrown there escapes in query mode too; the
`Except` reflects that. -/
def tabCommand (settings : IndentSettings) (state : EditorState)
    (dispatch : Bool) : Except String (Bool × Option Transaction) :=
  match getIndentText settings.useTab settings.spaceCount with
  | Except.error e => Except.error e
  | Except.ok text =>
    Except.ok
      (true,
       if dispatch then
         some (state.tr.insertText text state.selFrom state.selTo)
       else none)

/-- A ProseMirror command as `enterCommand` uses one: handed the current
state and a dispatch function, it may call the dispatch some number of times
and reports success or failure.  The external fallback commands
(`newlineInCode`, `createParagraphNear`, `liftEmptyBlock`, `splitBlock`) are
arbitrary such functions: a behaviour is the list of transactions the
command passes to its dispatch argument, in order, together with its return
value. -/
def Cmd : Type := EditorState → List Transaction × Bool

/-- One observable event of a run of `enterCommand`: a fallback command is
invoked (by its index in the list), the capture-only `customDispatch`
records a transaction, or the real `dispatch` is called with a
transaction. -/
inductive Event where
  | invoke (i : Nat) : Event
  | capture (tr : Transaction) : Event
  | realDispatch (tr : Transaction) : Event
deriving DecidableEq, Repr

/-- `customDispatch` semantics over one command's dispatched transactions:
`resultTr` ends up holding the last transaction assigned, or keeps its
previous value when the command never dispatched. -/
def captureLast (resultTr : Option Transaction) (out : List Transaction) :
    Option Transaction :=
  match out.getLast? with
  | some tr => some tr
  | none => resultTr

/-- The trial loop of `enterCommand`:
`for (let i = 0; i < enterCommands.length; i++) if (enterCommands[i](state, customDispatch, view)) break;`.
Every command is invoked on the same `state` with the capture-only dispatch;
the loop stops at the first command returning `true`.  Returns the final
`resultTr` and the event trace; `i` is the index of the first command in
`cmds`. -/
def trialLoop (st : EditorState) :
    List Cmd → Option Transaction → Nat → Option Transaction × List Event
  | [], resultTr, _ => (resultTr, [])
  | c :: rest, resultTr, i =>
    let out := c st
    let evs := Event.invoke i :: out.1.map Event.capture
    let resultTr := captureLast resultTr out.1
    if out.2 then (resultTr, evs)
    else
      let r := trialLoop st rest resultTr (i + 1)
      (r.1, evs ++ r.2)

/-- `enterCommand` from `src/main.ts`, over an arbitrary list of fallback
commands (`enterCommands` in the program): run the trial loop with the
capture-only dispatch; if a transaction was captured and a real dispatch is
present, dispatch the captured transaction extended by
`insertText(getExistingIndent($from.parent.textContent), finalTr.selection.to)`;
return `true` unconditionally.  The result is the return value paired with
the full event trace. -/
def enterCommand (cmds : List Cmd) (state : EditorState) (dispatch : Bool) :
    Bool × List Event :=
  let r := trialLoop state cmds none 0
  match r.1, dispatch with
  | some finalTr, true =>
    let line := state.selParentText
    let toPos := finalTr.selTo
    (true,
     r.2 ++ [Event.realDispatch
       (finalTr.insertText (getExistingIndent line) toPos toPos)])
  | _, _ => (true, r.2)

/-- The fixed fallback list `enterCommands = [newlineInCode,
createParagraphNear, liftEmptyBlock, splitBlock]` of `src/main.ts`: the four
framework commands are external, so they appear as parameters, in the
source's order. -/
def enterCommands (newlineInCode createParagraphNear liftEmptyBlock
    splitBlock : Cmd) : List Cmd :=
  [newlineInCode, createParagraphNear, liftEmptyBlock, splitBlock]

/-- The indices of the commands a trace invoked, in trace order. -/
def invokedIndices (evs : List Event) : List Nat :=
  evs.filterMap fun e =>
    match e with
    | Event.invoke i => some i
    | _ => none

/-- Whether an event is a call of the real dispatch. -/
def isRealDispatch : Event → Bool
  | Event.realDispatch _ => true
  | _ => false

/-- How many times a trace calls the real dispatch. -/
def realDispatchCount (evs : List Event) : Nat :=
  (evs.filter isRealDispatch).length

/-- How many commands the trial loop invokes: every command up to and
including the first that succeeds, or the whole list when none does. -/
def triedCount (st : EditorState) : List Cmd → Nat
  | [] => 0
  | c :: rest => if (c st).2 then 1 else 1 + triedCount st rest

/-- A fallback command that neither dispatches nor succeeds; also the
default for out-of-range list reads. -/
def skipCmd : Cmd := fun _ => ([], false)

lemma invokedIndices_append (l₁ l₂ : List Event) :
    invokedIndices (l₁ ++ l₂) = invokedIndices l₁ ++ invokedIndices l₂ :=
  List.filterMap_append l₁ l₂ _

lemma invokedIndices_captures (out : List Transaction) :
    invokedIndices (out.map Event.capture) = [] := by
  induction out with
  | nil => rfl
  | cons tr rest ih => simp [invokedIndices]

lemma invokedIndices_cons_invoke (k : Nat) (l : List Event) :
    invokedIndices (Event.invoke k :: l) = k :: invokedIndices l := rfl

lemma filter_real_captures (out : List Transaction) :
    (out.map Event.capture).filter isRealDispatch = [] := by
  induction out with
  | nil => rfl
  | cons tr rest ih => simp [isRealDispatch]

lemma trialLoop_invokes (st : EditorState) :
    ∀ (cmds : List Cmd) (r : Option Transaction) (k : Nat),
      invokedIndices (trialLoop st cmds r k).2
        = List.range' k (triedCount st cmds) := by
  intro cmds
  induction cmds with
  | nil => intro r k; rfl
  | cons c rest ih =>
    intro r k
    by_cases h : (c st).2
    · simp [trialLoop, triedCount, h, invokedIndices, invokedIndices_captures,
        List.range'_succ, List.filterMap_append]
    · have expand : (trialLoop st (c :: rest) r k).2
          = Event.invoke k :: ((c st).1.map Event.capture
               ++ (trialLoop st rest (captureLast r (c st).1) (k + 1)).2) := by
        simp [trialLoop, h]
      have hcount : triedCount st (c :: rest) = 1 + triedCount st rest := by
        simp [triedCount, h]
      rw [expand, invokedIndices_cons_invoke, invokedIndices_append,
        invokedIndices_captures, ih, hcount,
        Nat.add_comm 1 (triedCount st rest), List.range'_succ]
      simp

lemma trialLoop_no_real (st : EditorState) :
    ∀ (cmds : List Cmd) (r : Option Transaction) (k : Nat),
      realDispatchCount (trialLoop st cmds r k).2 = 0 := by
  intro cmds
  induction cmds with
  | nil => intro r k; rfl
  | cons c rest ih =>
    intro r k
    by_cases h : (c st).2
    · simp [trialLoop, h, realDispatchCount, isRealDispatch,
        filter_real_captures]
    · have expand : (trialLoop st (c :: rest) r k).2
          = Event.invoke k :: ((c st).1.map Event.capture
               ++ (trialLoop st rest (captureLast r (c st).1) (k + 1)).2) := by
        simp [trialLoop, h]
      rw [expand]
      simp [realDispatchCount, List.filter_append, isRealDispatch,
        filter_real_captures]
      simpa [realDispatchCount] using ih (captureLast r (c st).1) (k + 1)

lemma triedCount_first_success (st : EditorState) :
    ∀ (cmds : List Cmd) (i : Nat), i < cmds.length →
      ((cmds.getD i skipCmd) st).2 = true →
      (∀ j, j < i → ((cmds.getD j skipCmd) st).2 = false) →
      triedCount st cmds = i + 1 := by
  intro cmds
  induction cmds with
  | nil => intro i hi; exact absurd hi (Nat.not_lt_zero i)
  | cons c rest ih =>
    intro i hi hsucc hfail
    cases i with
    | zero =>
      simp only [List.getD_cons_zero] at hsucc
      simp [triedCount, hsucc]
    | succ i' =>
      have hc : (c st).2 = false := by
        have := hfail 0 (Nat.succ_pos i')
        simpa using this
      have hrest : triedCount st rest = i' + 1 := by
        apply ih i' (Nat.lt_of_succ_lt_succ (by simpa using hi))
        · simpa using hsucc
        · intro j hj
          have := hfail (j + 1) (Nat.succ_lt_succ hj)
          simpa using this
      simp [triedCount, hc, hrest, Nat.add_comm]

lemma enterCommand_invokes (cmds : List Cmd) (st : EditorState) (d : Bool) :
    invokedIndices (enterCommand cmds st d).2
      = invokedIndices (trialLoop st cmds none 0).2 := by
  unfold enterCommand
  rcases h : (trialLoop st cmds none 0).1 with _ | tr <;> cases d <;>
    simp [h, invokedIndices_append, invokedIndices]

lemma flatten_replicate_singleton (m : Nat) (a : Char) :
    (List.replicate m [a]).flatten = List.replicate m a := by
  induction m with
  | zero => rfl
  | succ m ih => simp [List.replicate_succ, ih]

lemma realDispatchCount_append (l₁ l₂ : List Event) :
    realDispatchCount (l₁ ++ l₂)
      = realDispatchCount l₁ + realDispatchCount l₂ := by
  simp [realDispatchCount, List.filter_append]

lemma realDispatchCount_real_singleton (tr : Transaction) :
    realDispatchCount [Event.realDispatch tr] = 1 := rfl

/-- C1: `getExistingIndent` is claimed to return the leading whitespace of
the line, and the entire line when the line is all whitespace.  The code
computes `line.slice(0, line.search(/\S/))`; on a line with no
non-whitespace character `search` yields `-1` and `slice(0, -1)` drops the
final character instead of keeping the whole line, contradicting the
function's own documentation.  At the all-whitespace line `" "` the code
returns `""` while its leading whitespace (the entire line) is `" "`. -/
theorem getExistingIndent_drops_last_on_all_whitespace :
    getExistingIndent " " = "" ∧ spec_leadingWhitespace " " = " " := by
  decide

/-- C2: with a fallback command that succeeds and captures a transaction and
a real dispatch present, `enterCommand` dispatches the captured transaction
extended by inserting `getExistingIndent` of the original selection parent's
text at the captured transaction's selection end.  When that previous line
is all whitespace (here `" "`), the inserted text is `""` — not the line's
leading whitespace `" "` as the claim states — because of the
`slice(0, -1)` slip in `getExistingIndent`.  The trace below shows the full
run: the command is invoked, its transaction is captured, and the real
dispatch receives the captured transaction extended by an insertion of `""`
(not `" "`) at its selection end `2`. -/
theorem enterCommand_inserts_dropped_indent_of_all_whitespace_line :
    enterCommand
        [(fun _ => ([(⟨[' '], 2, 2, []⟩ : Transaction)], true) : Cmd)]
        (⟨[' '], 1, 1, " "⟩ : EditorState) true
      = (true,
         [Event.invoke 0,
          Event.capture (⟨[' '], 2, 2, []⟩ : Transaction),
          Event.realDispatch
            (⟨[' '], 2, 2, [(⟨"", 2, 2⟩ : InsertTextStep)]⟩ : Transaction)]) ∧
    spec_leadingWhitespace " " = " " := by
  decide

/-- C3: `enterCommand` tries the fallback commands in the source's fixed
order (`newlineInCode`, `createParagraphNear`, `liftEmptyBlock`,
`splitBlock`, here abstract since they belong to the external framework) and
stops at the first success: when command `i` succeeds and every earlier
command fails, the invoked indices are exactly `0, …, i` in order, so no
command after the first successful one is invoked. -/
theorem enterCommand_first_success_short_circuits
    (newlineInCode createParagraphNear liftEmptyBlock splitBlock : Cmd)
    (st : EditorState) (dispatch : Bool) (i : Nat) (hi : i < 4)
    (hsucc : (((enterCommands newlineInCode createParagraphNear
        liftEmptyBlock splitBlock).getD i skipCmd) st).2 = true)
    (hfail : ∀ j, j < i →
      (((enterCommands newlineInCode createParagraphNear
          liftEmptyBlock splitBlock).getD j skipCmd) st).2 = false) :
    invokedIndices (enterCommand (enterCommands newlineInCode
        createParagraphNear liftEmptyBlock splitBlock) st dispatch).2
      = List.range (i + 1) := by
  have hlen : i < (enterCommands newlineInCode createParagraphNear
      liftEmptyBlock splitBlock).length := by
    simpa [enterCommands] using hi
  rw [enterCommand_invokes, trialLoop_invokes,
    triedCount_first_success st _ i hlen hsucc hfail]
  exact (List.range_eq_range' (i + 1)).symm

/-- Witness for C3: with a first command that fails and a second that
succeeds, exactly the first two commands are invoked, in order. -/
theorem enterCommand_first_success_short_circuits_witness :
    invokedIndices (enterCommand (enterCommands skipCmd
        (fun _ => ([], true)) skipCmd skipCmd) (⟨[], 0, 0, ""⟩ : EditorState)
        true).2
      = List.range 2 :=
  enterCommand_first_success_short_circuits skipCmd (fun _ => ([], true))
    skipCmd skipCmd ⟨[], 0, 0, ""⟩ true 1 (by decide) (by decide)
    (fun j hj => by
      have hj0 : j = 0 := Nat.lt_one_iff.mp hj
      subst hj0
      decide)

/-- C4: `getIndentText(useTab, spaceCount)` returns the single tab character
when `useTab` is true (for any `spaceCount`), and a string of exactly
`spaceCount` space characters for any non-negative integer `spaceCount` when
`useTab` is false. -/
theorem getIndentText_tab_or_spaces :
    (∀ spaceCount : JSNum, getIndentText true spaceCount = Except.ok "\t") ∧
    (∀ n : Nat, getIndentText false (JSNum.num n)
      = Except.ok (String.mk (List.replicate n ' '))) := by
  constructor
  · intro spaceCount; rfl
  · intro n
    have hfloor : Rat.floor ((n : ℕ) : ℚ) = (n : Int) := by
      simp [Rat.floor, Rat.den_natCast, Rat.num_natCast]
    have h0 : (0 : ℚ) ≤ (n : ℚ) := Nat.cast_nonneg n
    have hk : ¬ ((n : Int) < 0) := by omega
    simp [getIndentText, jsRepeat, toIntegerOrInfinity, h0, hfloor, hk,
      flatten_replicate_singleton]

/-- C5 counterexample: the claim says `getIndentText(false, spaceCount)` is
total and clamps negative counts to the empty string; in fact at
`spaceCount = -1` ECMAScript `String.prototype.repeat` throws a
`RangeError`, so the result is an error, not `""`. -/
theorem getIndentText_negative_not_clamped :
    getIndentText false (JSNum.num (-1)) = Except.error "RangeError" ∧
    ¬ getIndentText false (JSNum.num (-1)) = Except.ok "" :=
  ⟨rfl, fun h => Except.noConfusion h⟩

/-- C5 (amended): `getIndentText(false, spaceCount)` returns the empty
string for `NaN` (which converts to count `0`), but for any `spaceCount`
that truncates to a negative integer (any value `≤ -1`) it throws a
`RangeError` instead of clamping at zero. -/
theorem getIndentText_nan_empty_negative_throws (q : ℚ) (hq : q ≤ -1) :
    getIndentText false JSNum.nan = Except.ok "" ∧
    getIndentText false (JSNum.num q) = Except.error "RangeError" := by
  constructor
  · rfl
  · have h0 : ¬ ((0 : ℚ) ≤ q) := by linarith
    have h1 : (1 : Int) ≤ Rat.floor (-q) := by
      rw [Rat.le_floor]
      push_cast
      linarith
    have hneg : (-(Rat.floor (-q))) < 0 := by omega
    simp [getIndentText, jsRepeat, toIntegerOrInfinity, h0, hneg]

/-- Witness for C5 (amended), at `spaceCount = -1`. -/
theorem getIndentText_nan_empty_negative_throws_witness :
    getIndentText false JSNum.nan = Except.ok "" ∧
    getIndentText false (JSNum.num (-1)) = Except.error "RangeError" :=
  getIndentText_nan_empty_negative_throws (-1) (le_refl (-1 : ℚ))

/-- C6: `enterCommand` returns `true` for every state, every fallback
behaviour (including all commands failing, so that nothing is captured) and
whether or not a real dispatch is provided. -/
theorem enterCommand_always_returns_true (cmds : List Cmd)
    (st : EditorState) (dispatch : Bool) :
    (enterCommand cmds st dispatch).1 = true := by
  cases h : (trialLoop st cmds none 0).1 <;> cases dispatch <;>
    simp [enterCommand, h]

/-- C7: during the trial loop the capture-only dispatch just records
transactions and the real dispatch is never called: the loop's trace
contains no real-dispatch event; the full `enterCommand` trace starts with
the untouched loop trace, everything after it is real-dispatch only, and the
real dispatch fires exactly once when a transaction was captured and a real
dispatch was provided, and never otherwise.  (Editor-state immutability is
structural: every command in `trialLoop` receives the same `st`.) -/
theorem enterCommand_capture_only_until_loop_done (cmds : List Cmd)
    (st : EditorState) (dispatch : Bool) :
    realDispatchCount (trialLoop st cmds none 0).2 = 0 ∧
    (enterCommand cmds st dispatch).2.take
        (trialLoop st cmds none 0).2.length
      = (trialLoop st cmds none 0).2 ∧
    ((enterCommand cmds st dispatch).2.drop
        (trialLoop st cmds none 0).2.length).all isRealDispatch = true ∧
    realDispatchCount (enterCommand cmds st dispatch).2
      = (if dispatch && (trialLoop st cmds none 0).1.isSome then 1 else 0) := by
  have hno := trialLoop_no_real st cmds none 0
  refine ⟨hno, ?_, ?_, ?_⟩
  · cases h : (trialLoop st cmds none 0).1 <;> cases dispatch <;>
      simp [enterCommand, h, List.take_left, List.take_length]
  · cases h : (trialLoop st cmds none 0).1 <;> cases dispatch <;>
      simp [enterCommand, h, List.drop_left, isRealDispatch]
  · cases h : (trialLoop st cmds none 0).1 <;> cases dispatch <;>
      simp [enterCommand, h, realDispatchCount_append, hno,
        realDispatchCount_real_singleton]

/-- C8: with a dispatch present and the indent text successfully computed
from the settings, `tabCommand` dispatches `state.tr.insertText(text, from,
to)` over the whole selection: the resulting document replaces the
characters between the selection start and the selection end with the indent
text, rather than inserting at the cursor only. -/
theorem tabCommand_replaces_selection (settings : IndentSettings)
    (st : EditorState) (text : String)
    (h : getIndentText settings.useTab settings.spaceCount
      = Except.ok text) :
    tabCommand settings st true
      = Except.ok (true, some (st.tr.insertText text st.selFrom st.selTo)) ∧
    (st.tr.insertText text st.selFrom st.selTo).doc
      = st.doc.take st.selFrom ++ text.data ++ st.doc.drop st.selTo := by
  refine ⟨?_, rfl⟩
  simp [tabCommand, h]

/-- Witness for C8: with tab settings on the document `abc` and selection
`[1, 2)`, the dispatched transaction's document is `a\tc`. -/
theorem tabCommand_replaces_selection_witness :
    tabCommand (⟨true, JSNum.num 4⟩ : IndentSettings)
        (⟨['a', 'b', 'c'], 1, 2, "abc"⟩ : EditorState) true
      = Except.ok (true, some ((⟨['a', 'b', 'c'], 1, 2, "abc"⟩ :
          EditorState).tr.insertText "\t" 1 2)) ∧
    ((⟨['a', 'b', 'c'], 1, 2, "abc"⟩ : EditorState).tr.insertText
        "\t" 1 2).doc
      = ['a', 'b', 'c'].take 1 ++ "\t".data ++ ['a', 'b', 'c'].drop 2 :=
  tabCommand_replaces_selection ⟨true, JSNum.num 4⟩
    ⟨['a', 'b', 'c'], 1, 2, "abc"⟩ "\t" rfl

/-- C9: the claim (and the function's own comment, "this doesn't fail") says
`tabCommand` always returns `true`; but the indent text is computed before
the dispatch check, so with the reachable settings `useTab = false`,
`spaceCount = -1` (the space-count listener stores negative input values
as-is) `" ".repeat(-1)` throws a `RangeError` and `tabCommand` returns
nothing at all — in query mode (no dispatch) as well. -/
theorem tabCommand_throws_on_negative_spaceCount :
    tabCommand (⟨false, JSNum.num (-1)⟩ : IndentSettings)
        (⟨['H', 'i'], 0, 0, "Hi"⟩ : EditorState) true
      = Except.error "RangeError" ∧
    tabCommand (⟨false, JSNum.num (-1)⟩ : IndentSettings)
        (⟨['H', 'i'], 0, 0, "Hi"⟩ : EditorState) false
      = Except.error "RangeError" :=
  ⟨rfl, rfl⟩

/-- C10: the space-count input listener stores
`spaceInput.valueAsNumber || 0`: the stored value is never `NaN`; `NaN`
(non-numeric input) and `0` are stored as `0`, and every other numeric value
— negative ones included — is stored as-is. -/
theorem storedSpaceCount_never_nan (v : JSNum) :
    storedSpaceCount v ≠ JSNum.nan ∧
    storedSpaceCount v
      = (if v = JSNum.nan ∨ v = JSNum.num 0 then JSNum.num 0 else v) := by
  cases v with
  | nan => simp [storedSpaceCount]
  | num q =>
    by_cases hq : q = 0 <;> simp [storedSpaceCount, hq]

end PMIndent
